import Mathlib

/-
Shallow embedding of the AZOTH-DAO confidential governance system.

Source of truth: the Solidity function bodies reproduced verbatim in
`src/apps/inco-lite-template/INCO_INTEGRATION.md` (the four contracts
CUSDCMarketplace, ConfidentialVault, ConfidentialGovernanceToken, AzothDAO),
together with the constants documented in `src/PROJECT_SUMMARY.md`,
`src/INCO_PITCH.md` and `src/unnamed/part_001` (VIRTUAL_SHARES = 1000,
VIRTUAL_ASSETS = 1, DECIMAL_OFFSET = 1000).

The Inco Lightning encryption engine is modelled as a handle allocator:
every homomorphic operation allocates a fresh handle (a Nat), `val` records
the plaintext the engine associates with a handle, and `acl` records the
capability grants (`allow` / `allowThis`).  Nat 0 is reserved for the
Solidity `bytes32(0)` "uninitialized" sentinel.  euint256 arithmetic wraps
modulo 2^256; encrypted division by zero yields 0 (the numerator is 0 in
every configuration examined here, so any total convention agrees).

Contract functions are state transformers returning `Except Err St`;
an `error` result models a Solidity revert, i.e. no state change at all.
-/

namespace Azoth

def M256 : Nat := 2 ^ 256

/-- The Inco Lightning engine state: a fresh-handle counter, the plaintext
meaning of every allocated handle, and the per-handle capability (ACL) table. -/
structure Inco where
  nextHandle : Nat
  val : Nat → Nat
  acl : Nat → Nat → Bool

/-- Allocate a fresh handle for plaintext `x`. -/
def Inco.fresh (st : Inco) (x : Nat) : Inco × Nat :=
  ({ nextHandle := st.nextHandle + 1,
     val := fun h => if h = st.nextHandle then x else st.val h,
     acl := st.acl },
   st.nextHandle)

/-- `uint256(x).asEuint256()` — trivially encrypt a plaintext. -/
def Inco.asEuint256 (st : Inco) (x : Nat) : Inco × Nat :=
  st.fresh (x % M256)

/-- `b.asEbool()` — trivially encrypt a boolean. -/
def Inco.asEbool (st : Inco) (b : Bool) : Inco × Nat :=
  st.fresh (if b then 1 else 0)

/-- `a.add(b)` — homomorphic addition (wraps mod 2^256). -/
def Inco.eadd (st : Inco) (a b : Nat) : Inco × Nat :=
  st.fresh ((st.val a + st.val b) % M256)

/-- `a.sub(b)` — homomorphic subtraction (wraps mod 2^256). -/
def Inco.esub (st : Inco) (a b : Nat) : Inco × Nat :=
  st.fresh (((st.val a % M256 + M256) - st.val b % M256) % M256)

/-- `a.mul(b)` — homomorphic multiplication (wraps mod 2^256). -/
def Inco.emul (st : Inco) (a b : Nat) : Inco × Nat :=
  st.fresh ((st.val a * st.val b) % M256)

/-- `a.div(b)` — homomorphic division; division by zero yields 0. -/
def Inco.ediv (st : Inco) (a b : Nat) : Inco × Nat :=
  st.fresh (st.val a / st.val b)

/-- `h.allow(a)` — grant address `a` the capability to decrypt handle `h`.
`h.allowThis()` is `allow` with the contract's own address. -/
def Inco.allow (st : Inco) (h : Nat) (a : Nat) : Inco :=
  { st with acl := fun h2 a2 => (h2 == h && a2 == a) || st.acl h2 a2 }

/-- The ACL query: may `a` request the plaintext of `h`? -/
def Inco.isAuthorized (st : Inco) (h : Nat) (a : Nat) : Bool :=
  st.acl h a

/-- Well-formed ACL: no grants exist on handles that have not been allocated. -/
def Inco.AclWf (st : Inco) : Prop :=
  ∀ h p, st.nextHandle ≤ h → st.acl h p = false

/- ===== Contract addresses (distinct principals) ===== -/

def marketAddr : Nat := 101
def vaultAddr : Nat := 102
def cgovAddr : Nat := 103
def daoAddr : Nat := 104

/- ===== AzothDAO data model (struct Proposal / struct Receipt) ===== -/

inductive ProposalState where
  | Pending | Active | Succeeded | Defeated | Queued | Executed | Canceled
deriving DecidableEq

inductive VoteType where
  | For | Against | Abstain
deriving DecidableEq

inductive VotingMode where
  | Normal | Quadratic
deriving DecidableEq

structure Proposal where
  id : Nat
  proposer : Nat
  description : String
  requestedAmount : Nat
  recipient : Nat
  startBlock : Nat
  endBlock : Nat
  queuedTime : Nat
  forVotes : Nat
  againstVotes : Nat
  abstainVotes : Nat
  state : ProposalState
  votingMode : VotingMode
  executed : Bool

structure Receipt where
  hasVoted : Bool
  votes : Nat
  support : VoteType

/-- The Solidity mapping default: an all-zero proposal slot. -/
def emptyProposal : Proposal :=
  { id := 0, proposer := 0, description := "", requestedAmount := 0,
    recipient := 0, startBlock := 0, endBlock := 0, queuedTime := 0,
    forVotes := 0, againstVotes := 0, abstainVotes := 0,
    state := .Pending, votingMode := .Normal, executed := false }

/-- The Solidity mapping default: an all-zero vote receipt slot. -/
def emptyReceipt : Receipt :=
  { hasVoted := false, votes := 0, support := .For }

/- ===== Combined on-chain state of the four contracts ===== -/

structure World where
  inco : Inco
  -- CUSDCMarketplace storage
  cusdcBalances : Nat → Nat
  cusdcTotalMinted : Nat
  -- ConfidentialVault storage
  vTotalAssets : Nat
  vTotalShares : Nat
  vShares : Nat → Nat
  -- ConfidentialGovernanceToken storage
  gBalances : Nat → Nat
  gTotalSupply : Nat
  gHasVotingPower : Nat → Nat
  gHasHeldToken : Nat → Bool
  -- AzothDAO storage
  proposalCount : Nat
  proposals : Nat → Proposal
  receipts : Nat → Nat → Receipt
  daoMembers : Nat → Bool

/- ===== CUSDCMarketplace ===== -/

inductive MarketErr where
  | MustSendETH
deriving DecidableEq

/-- `purchaseCUSDC()` from CUSDCMarketplace.sol
(INCO_INTEGRATION.md, "Purchase Function", Line 82).
`exchangeRate` is the contract's EXCHANGE_RATE constant, whose numeric value
is not given in the source, so it is passed as a parameter. -/
def purchaseCUSDC (w : World) (sender : Nat) (msgValue exchangeRate : Nat) :
    Except MarketErr World :=
  if msgValue = 0 then .error .MustSendETH
  else
    -- uint256 cUSDCAmount = (msg.value * EXCHANGE_RATE) / 1e18;
    let cUSDCAmount := (msgValue * exchangeRate) / 10 ^ 18
    let e1 := w.inco.asEuint256 cUSDCAmount
    let encryptedAmount := e1.2
    -- newBalance: first write vs encrypted add to existing balance
    let e2 :=
      if w.cusdcBalances sender = 0 then (e1.1, encryptedAmount)
      else e1.1.eadd (w.cusdcBalances sender) encryptedAmount
    let newBalance := e2.2
    let e3 := e2.1.eadd w.cusdcTotalMinted encryptedAmount
    let newTotalMinted := e3.2
    -- ACL grants using the local variables
    let i := ((e3.1.allow newBalance marketAddr).allow newBalance sender).allow
      newTotalMinted marketAddr
    .ok { w with
      inco := i,
      cusdcBalances := fun a => if a = sender then newBalance else w.cusdcBalances a,
      cusdcTotalMinted := newTotalMinted }

/-- `vaultTransfer(from, amount)` from CUSDCMarketplace.sol
(INCO_INTEGRATION.md, "Vault Transfer Function", Line 124).
Called by the vault inside `deposit`, so the onlyAuthorizedVault modifier is
satisfied at its only call site. -/
def vaultTransfer (w : World) (fromA : Nat) (amount : Nat) : World × Nat :=
  let userBalance := w.cusdcBalances fromA
  let e1 := w.inco.esub userBalance amount
  let newBalance := e1.2
  let i := (e1.1.allow newBalance marketAddr).allow newBalance fromA
  ({ w with
     inco := i,
     cusdcBalances := fun a => if a = fromA then newBalance else w.cusdcBalances a },
   amount)

/- ===== ConfidentialVault ===== -/

/-- DECIMAL_OFFSET: the deposit code scales assets "by decimal offset (1000)". -/
def DECIMAL_OFFSET : Nat := 1000

/-- `deposit()` from ConfidentialVault.sol
(INCO_INTEGRATION.md, "Deposit Function", Line 127).
Returns the updated world together with the `sharesReceived` handle.
The function has no revert path. -/
def deposit (w : World) (sender : Nat) : World × Nat :=
  -- euint256 dummyHandle = uint256(0).asEuint256();
  let e0 := w.inco.asEuint256 0
  let dummyHandle := e0.2
  -- euint256 actualAssets = cUSDC.vaultTransfer(msg.sender, dummyHandle);
  let t := vaultTransfer { w with inco := e0.1 } sender dummyHandle
  let w1 := t.1
  let actualAssets := t.2
  -- euint256 assetsScaled = actualAssets.mul(DECIMAL_OFFSET.asEuint256());
  let e1 := w1.inco.asEuint256 DECIMAL_OFFSET
  let e2 := e1.1.emul actualAssets e1.2
  let assetsScaled := e2.2
  -- euint256 numerator = assetsScaled.mul(_totalShares);
  let e3 := e2.1.emul assetsScaled w1.vTotalShares
  let numerator := e3.2
  -- sharesReceived = numerator.div(_totalAssets);
  let e4 := e3.1.ediv numerator w1.vTotalAssets
  let sharesReceived := e4.2
  -- vault totals
  let e5 := e4.1.eadd w1.vTotalAssets actualAssets
  let newTotalAssets := e5.2
  let e6 := e5.1.eadd w1.vTotalShares sharesReceived
  let newTotalShares := e6.2
  -- user shares: first write vs encrypted add
  let e7 :=
    if w1.vShares sender = 0 then (e6.1, sharesReceived)
    else e6.1.eadd (w1.vShares sender) sharesReceived
  let newShares := e7.2
  -- ACL grants using the local variables
  let i := (((e7.1.allow newTotalAssets vaultAddr).allow newTotalShares vaultAddr).allow
      newShares vaultAddr).allow newShares sender
  ({ w1 with
     inco := i,
     vTotalAssets := newTotalAssets,
     vTotalShares := newTotalShares,
     vShares := fun a => if a = sender then newShares else w1.vShares a },
   sharesReceived)

/-- VIRTUAL_SHARES from src/PROJECT_SUMMARY.md and src/INCO_PITCH.md. -/
def VIRTUAL_SHARES : Nat := 1000

/-- VIRTUAL_ASSETS from src/PROJECT_SUMMARY.md and src/INCO_PITCH.md. -/
def VIRTUAL_ASSETS : Nat := 1

/-- The share-issuance formula documented in src/PROJECT_SUMMARY.md
(its `deposit` snippet, lines 480-505) and asserted by the spec:
sharesIssued = (amount * (totalShares + VIRTUAL_SHARES)) / (totalAssets + VIRTUAL_ASSETS). -/
def summaryDepositShares (amount totalShares totalAssets : Nat) : Nat :=
  (amount * (totalShares + VIRTUAL_SHARES)) / (totalAssets + VIRTUAL_ASSETS)

/- ===== ConfidentialGovernanceToken (cGOV) ===== -/

inductive CGovErr where
  | NotDAOMember
  | InsufficientETH
deriving DecidableEq

/-- `mint(amount)` from ConfidentialGovernanceToken.sol
(INCO_INTEGRATION.md, "Mint Function", Line 105).
`mintPrice` is contract configuration whose value is not fixed in the source. -/
def mint (w : World) (sender : Nat) (amount msgValue mintPrice : Nat) :
    Except CGovErr World :=
  -- if (!authorizedDAO.isMember(msg.sender)) revert NotDAOMember();
  if w.daoMembers sender = false then .error .NotDAOMember
  else if msgValue < amount * mintPrice then .error .InsufficientETH
  else
    let e1 := w.inco.asEuint256 amount
    let encryptedAmount := e1.2
    let e2 :=
      if w.gBalances sender = 0 then (e1.1, encryptedAmount)
      else e1.1.eadd (w.gBalances sender) encryptedAmount
    let newBalance := e2.2
    let e3 := e2.1.eadd w.gTotalSupply encryptedAmount
    let newTotalSupply := e3.2
    -- _hasVotingPower[msg.sender] = true.asEbool();
    let e4 := e3.1.asEbool true
    let hvp := e4.2
    -- ACL grants (the last one re-reads the freshly written storage slot,
    -- which holds the same handle `hvp`)
    let i := ((((e4.1.allow newBalance cgovAddr).allow newBalance sender).allow
        newBalance daoAddr).allow newTotalSupply cgovAddr).allow hvp cgovAddr
    .ok { w with
      inco := i,
      gBalances := fun a => if a = sender then newBalance else w.gBalances a,
      gTotalSupply := newTotalSupply,
      gHasVotingPower := fun a => if a = sender then hvp else w.gHasVotingPower a,
      gHasHeldToken := fun a => if a = sender then true else w.gHasHeldToken a }

/-- `hasVotingPower(account)` from ConfidentialGovernanceToken.sol
(INCO_INTEGRATION.md, Line 172): early-return false without the public flag,
otherwise the contract compares the encrypted balance against an encrypted
zero with `gt` and decrypts the resulting boolean under its own capability;
the composite is the plaintext comparison `balance > 0`. -/
def World.hasVotingPower (w : World) (account : Nat) : Bool :=
  w.gHasHeldToken account && decide (0 < w.inco.val (w.gBalances account))

/-- `balanceOf(account)` — returns the encrypted handle, not a plaintext. -/
def World.gBalanceOf (w : World) (account : Nat) : Nat :=
  w.gBalances account

/- ===== AzothDAO ===== -/

inductive DaoErr where
  | NotMember
  | NoVotingPower
  | FeeTooLow
  | InvalidRecipient
  | ProposalNotActive
  | VotingNotStarted
  | VotingEnded
  | AlreadyVoted
  | VotingNotEnded
  | AlreadyExecutedOrCanceled
deriving DecidableEq

/-- `propose(description, encryptedAmount, recipient, votingMode)` from
AzothDAO.sol (INCO_INTEGRATION.md, "Propose Function", Line 272).
`inco.reencryptFromBytes` rehydrates the client ciphertext into a fresh
handle, modelled by allocating a fresh handle for the client's plaintext
`amountPlain`.  `fee`, `votingDelay` and `votingPeriod` are contract
configuration passed as parameters. -/
def propose (w : World) (blockNumber : Nat) (sender : Nat) (description : String)
    (amountPlain : Nat) (recipient : Nat) (mode : VotingMode)
    (msgValue fee votingDelay votingPeriod : Nat) :
    Except DaoErr (World × Nat) :=
  -- onlyMember modifier
  if w.daoMembers sender = false then .error .NotMember
  else if w.hasVotingPower sender = false then .error .NoVotingPower
  else if msgValue < fee then .error .FeeTooLow
  else if recipient = 0 then .error .InvalidRecipient
  else
    let pid := w.proposalCount + 1
    -- proposal.requestedAmount = inco.reencryptFromBytes(encryptedAmount);
    let e1 := w.inco.asEuint256 amountPlain
    let reqAmt := e1.2
    -- tallies initialized to encrypted zero
    let e2 := e1.1.asEuint256 0
    let fv := e2.2
    let e3 := e2.1.asEuint256 0
    let av := e3.2
    let e4 := e3.1.asEuint256 0
    let bv := e4.2
    -- ACL grants: allowThis on requestedAmount and the three tallies
    let i := (((e4.1.allow reqAmt daoAddr).allow fv daoAddr).allow av daoAddr).allow
      bv daoAddr
    let p : Proposal :=
      { id := pid, proposer := sender, description := description,
        requestedAmount := reqAmt, recipient := recipient,
        startBlock := blockNumber + votingDelay,
        endBlock := blockNumber + votingDelay + votingPeriod,
        queuedTime := 0, forVotes := fv, againstVotes := av, abstainVotes := bv,
        state := .Pending, votingMode := mode, executed := false }
    .ok ({ w with
            inco := i,
            proposalCount := pid,
            proposals := fun j => if j = pid then p else w.proposals j },
         pid)

/-- `castVote(proposalId, support)` from AzothDAO.sol
(INCO_INTEGRATION.md, "Cast Vote Function", Line 358). -/
def castVote (w : World) (blockNumber : Nat) (sender : Nat) (pid : Nat)
    (support : VoteType) : Except DaoErr World :=
  let proposal := w.proposals pid
  let receipt := w.receipts pid sender
  if proposal.state ≠ ProposalState.Active then .error .ProposalNotActive
  else if blockNumber < proposal.startBlock then .error .VotingNotStarted
  else if proposal.endBlock < blockNumber then .error .VotingEnded
  else if receipt.hasVoted then .error .AlreadyVoted
  else if w.hasVotingPower sender = false then .error .NoVotingPower
  else
    -- euint256 weight = cGOV.balanceOf(msg.sender);
    let weight := w.gBalanceOf sender
    let newReceipt : Receipt := { hasVoted := true, votes := weight, support := support }
    match support with
    | .For =>
        let e1 := w.inco.eadd proposal.forVotes weight
        let newTally := e1.2
        .ok { w with
          inco := e1.1.allow newTally daoAddr,
          proposals := fun j =>
            if j = pid then { proposal with forVotes := newTally } else w.proposals j,
          receipts := fun j a =>
            if j = pid ∧ a = sender then newReceipt else w.receipts j a }
    | .Against =>
        let e1 := w.inco.eadd proposal.againstVotes weight
        let newTally := e1.2
        .ok { w with
          inco := e1.1.allow newTally daoAddr,
          proposals := fun j =>
            if j = pid then { proposal with againstVotes := newTally } else w.proposals j,
          receipts := fun j a =>
            if j = pid ∧ a = sender then newReceipt else w.receipts j a }
    | .Abstain =>
        let e1 := w.inco.eadd proposal.abstainVotes weight
        let newTally := e1.2
        .ok { w with
          inco := e1.1.allow newTally daoAddr,
          proposals := fun j =>
            if j = pid then { proposal with abstainVotes := newTally } else w.proposals j,
          receipts := fun j a =>
            if j = pid ∧ a = sender then newReceipt else w.receipts j a }

/-- `revealVotes(proposalId)` from AzothDAO.sol
(INCO_INTEGRATION.md, "Reveal Votes Function", Line 421). -/
def revealVotes (w : World) (blockNumber : Nat) (sender : Nat) (pid : Nat) :
    Except DaoErr World :=
  if w.daoMembers sender = false then .error .NotMember
  else
    let proposal := w.proposals pid
    if blockNumber ≤ proposal.endBlock then .error .VotingNotEnded
    else if proposal.executed = true ∨ proposal.state = ProposalState.Canceled then
      .error .AlreadyExecutedOrCanceled
    else
      let i := ((w.inco.allow proposal.forVotes sender).allow
          proposal.againstVotes sender).allow proposal.abstainVotes sender
      .ok { w with inco := i }

/-- `finalizeProposal(proposalId, forVotes, againstVotes)` from AzothDAO.sol
(INCO_INTEGRATION.md, "Finalize Proposal Function", Line 449). -/
def finalizeProposal (w : World) (blockNumber : Nat) (sender : Nat) (pid : Nat)
    (forV againstV : Nat) : Except DaoErr World :=
  if w.daoMembers sender = false then .error .NotMember
  else
    let proposal := w.proposals pid
    if blockNumber ≤ proposal.endBlock then .error .VotingNotEnded
    else if proposal.state ≠ ProposalState.Active ∧
        proposal.state ≠ ProposalState.Pending then .error .ProposalNotActive
    else
      let newState :=
        if againstV < forV then ProposalState.Succeeded else ProposalState.Defeated
      .ok { w with
        proposals := fun j =>
          if j = pid then { proposal with state := newState } else w.proposals j }

/- ===== Transaction wrappers: a revert leaves the state unchanged ===== -/

def castVoteRun (w : World) (b : Nat) (s : Nat) (pid : Nat) (c : VoteType) : World :=
  match castVote w b s pid c with
  | .ok w2 => w2
  | .error _ => w

def revealRun (w : World) (b : Nat) (s : Nat) (pid : Nat) : World :=
  match revealVotes w b s pid with
  | .ok w2 => w2
  | .error _ => w

def finalizeRun (w : World) (b : Nat) (s : Nat) (pid : Nat) (f a : Nat) : World :=
  match finalizeProposal w b s pid f a with
  | .ok w2 => w2
  | .error _ => w

/- ===== DAO transaction sequences on one proposal ===== -/

inductive DaoOp where
  | voteOp (blk : Nat) (sender : Nat) (support : VoteType)
  | revealOp (blk : Nat) (sender : Nat)
  | finalizeOp (blk : Nat) (sender : Nat) (forV againstV : Nat)

def DaoOp.blk : DaoOp → Nat
  | .voteOp b _ _ => b
  | .revealOp b _ => b
  | .finalizeOp b _ _ _ => b

def stepDao (pid : Nat) (w : World) (op : DaoOp) : World :=
  match op with
  | .voteOp b s c => castVoteRun w b s pid c
  | .revealOp b s => revealRun w b s pid
  | .finalizeOp b s f a => finalizeRun w b s pid f a

def runDao (pid : Nat) (w : World) (ops : List DaoOp) : World :=
  ops.foldl (stepDao pid) w

structure VoteCall where
  blk : Nat
  sender : Nat
  support : VoteType

def runVotes (w : World) (pid : Nat) (vs : List VoteCall) : World :=
  vs.foldl (fun acc v => castVoteRun acc v.blk v.sender pid v.support) w

/-- Replace only the votingMode field of proposal `pid`. -/
def setMode (w : World) (pid : Nat) (m : VotingMode) : World :=
  { w with proposals := fun j =>
      if j = pid then { w.proposals j with votingMode := m } else w.proposals j }

/- ===== Tally confidentiality predicates (claim C9) ===== -/

/-- No principal other than the DAO contract itself holds a capability on any
of the three tally handles of proposal `pid`. -/
def TallyPrivate (w : World) (pid : Nat) : Prop :=
  ∀ p, p ≠ daoAddr →
    w.inco.acl (w.proposals pid).forVotes p = false ∧
    w.inco.acl (w.proposals pid).againstVotes p = false ∧
    w.inco.acl (w.proposals pid).abstainVotes p = false

/-- The confidentiality invariant carried through a proposal's voting window:
a well-formed ACL, allocated tally handles, and tally privacy. -/
def TallySafe (w : World) (pid : Nat) : Prop :=
  Inco.AclWf w.inco ∧
  (w.proposals pid).forVotes < w.inco.nextHandle ∧
  (w.proposals pid).againstVotes < w.inco.nextHandle ∧
  (w.proposals pid).abstainVotes < w.inco.nextHandle ∧
  TallyPrivate w pid

/- ===== Session delegation protocol =====

Modelled from the spec: the repository's own code
(`src/unnamed/part_000`, functions `grantSessionKeyVoucher`,
`decryptWithVoucher`, `revokeAllVouchers`) only forwards to the external
`@inco/js` SDK (`zap.grantSessionKeyAllowanceVoucher`,
`zap.attestedDecryptWithVoucher`, `zap.updateActiveVouchersSessionNonce`),
so the voucher verification itself is not in the source tree.  The
definitions below follow the spec's description of the protocol: a voucher
binds a granter, an ephemeral grantee identity, an expiry timestamp, the
granter's revocation nonce at issuance, and a signature; verification
checks (a) signature validity, (b) now < expiresAt, (c) the granter's
current revocation nonce matches the nonce embedded at issuance,
(d) per-handle authorization of the granter — failing with
VoucherInvalid / VoucherExpired / VoucherRevoked and no partial results;
revokeAll increments the granter's nonce in one step. -/

inductive VoucherErr where
  | VoucherInvalid
  | VoucherExpired
  | VoucherRevoked
deriving DecidableEq

/-- Modelled from the spec: a session voucher (granter principal, grantee
ephemeral identity, expiry, embedded revocation nonce, signature validity
as judged by the identity collaborator). -/
structure Voucher where
  granter : Nat
  grantee : Nat
  expiresAt : Nat
  nonceAtIssue : Nat
  sigValid : Bool

/-- Modelled from the spec: the per-granter revocation-nonce registry. -/
structure SessionReg where
  nonce : Nat → Nat

/-- Modelled from the spec: `issueVoucher(granter, granteeIdentity, expiresAt)`
embeds the granter's current revocation nonce and a valid signature. -/
def issueVoucher (r : SessionReg) (granter grantee : Nat) (expiresAt : Nat) :
    Voucher :=
  { granter := granter, grantee := grantee, expiresAt := expiresAt,
    nonceAtIssue := r.nonce granter, sigValid := true }

/-- Modelled from the spec: `revokeAll(granter)` increments the granter's
revocation nonce in one step. -/
def revokeAll (r : SessionReg) (g : Nat) : SessionReg :=
  { nonce := fun a => if a = g then r.nonce a + 1 else r.nonce a }

/-- Modelled from the spec: `decryptWithVoucher(voucher, handles)` verifies
signature, expiry, revocation nonce and per-handle authorization of the
granter, then decrypts all handles as the granter; any failed check yields
an error and no partial results. -/
def decryptWithVoucher (r : SessionReg) (ac : Inco) (now : Nat) (v : Voucher)
    (handles : List Nat) : Except VoucherErr (List Nat) :=
  if v.sigValid = false then .error .VoucherInvalid
  else if v.expiresAt ≤ now then .error .VoucherExpired
  else if r.nonce v.granter ≠ v.nonceAtIssue then .error .VoucherRevoked
  else if handles.all (fun h => ac.isAuthorized h v.granter) then
    .ok (handles.map ac.val)
  else .error .VoucherInvalid

/-- Session-registry transactions: voucher issuance (which does not change
the registry) and revocation. -/
inductive SessionOp where
  | issueOp (granter grantee : Nat) (expiresAt : Nat)
  | revokeOp (g : Nat)

def SessionReg.step (r : SessionReg) : SessionOp → SessionReg
  | .issueOp _ _ _ => r
  | .revokeOp g => revokeAll r g

def SessionReg.run (r : SessionReg) (ops : List SessionOp) : SessionReg :=
  ops.foldl SessionReg.step r

/- ===== Concrete states used by the closed theorems ===== -/

/-- A small engine state: handle 1 holds 5 and handle 2 holds 3 (the two
governance balances of the end-to-end scenario); no grants. -/
def demoInco : Inco :=
  { nextHandle := 10,
    val := fun h => if h = 1 then 5 else if h = 2 then 3 else 0,
    acl := fun _ _ => false }

/-- A world with DAO members 5, 7 and 8; voter 7 holds 5 cGOV (handle 1) and
voter 8 holds 3 cGOV (handle 2). -/
def demoWorld : World :=
  { inco := demoInco,
    cusdcBalances := fun _ => 0,
    cusdcTotalMinted := 0,
    vTotalAssets := 0, vTotalShares := 0, vShares := fun _ => 0,
    gBalances := fun a => if a = 7 then 1 else if a = 8 then 2 else 0,
    gTotalSupply := 0,
    gHasVotingPower := fun _ => 0,
    gHasHeldToken := fun a => a == 7 || a == 8,
    proposalCount := 0,
    proposals := fun _ => emptyProposal,
    receipts := fun _ _ => emptyReceipt,
    daoMembers := fun a => a == 5 || a == 7 || a == 8 }

/-- The world after member 7 proposes at block 100 with votingDelay 1 and
votingPeriod 50400: proposal 1 has startBlock 101, endBlock 50501. -/
def demoWorld1 : World :=
  match propose demoWorld 100 7 "fund" 42 9 .Normal 1 1 1 50400 with
  | .ok r => r.1
  | .error _ => demoWorld

/-- Same proposal created with Quadratic voting mode. -/
def demoWorldQ : World :=
  match propose demoWorld 100 7 "fund" 42 9 .Quadratic 1 1 1 50400 with
  | .ok r => r.1
  | .error _ => demoWorld

/-- The world after the first successful finalize of proposal 1. -/
def finalizedWorld : World :=
  match finalizeProposal demoWorld1 50502 7 1 5 3 with
  | .ok w => w
  | .error _ => demoWorld1

/-- A proposal slot manually in the Active state (no operation of the source
ever sets a proposal to Active; this state is used to exercise the per-call
behaviour of `castVote` on an Active proposal). -/
def activeProposal : Proposal :=
  { id := 1, proposer := 7, description := "fund", requestedAmount := 9,
    recipient := 9, startBlock := 101, endBlock := 50501, queuedTime := 0,
    forVotes := 3, againstVotes := 4, abstainVotes := 5,
    state := .Active, votingMode := .Normal, executed := false }

def activeWorld : World :=
  { demoWorld with proposals := fun j => if j = 1 then activeProposal else emptyProposal }

/-- The world after voter 7 successfully votes For on the Active proposal. -/
def votedWorld : World :=
  match castVote activeWorld 200 7 1 .For with
  | .ok w => w
  | .error _ => activeWorld

/-- The world after user 7 buys cUSDC with 1 ETH at an exchange rate of 1000. -/
def purchasedWorld : World :=
  match purchaseCUSDC demoWorld 7 (10 ^ 18) 1000 with
  | .ok w => w
  | .error _ => demoWorld

/-- The world after member 7 mints 2 cGOV paying 5 wei at mintPrice 1. -/
def mintedWorld : World :=
  match mint demoWorld 7 2 5 1 with
  | .ok w => w
  | .error _ => demoWorld

/-- An empty vault (totalAssets and totalShares hold encrypted zeros, handles
6 and 7) and a depositor 7 whose cUSDC balance (handle 8) is 5000. -/
def vaultInco : Inco :=
  { nextHandle := 20,
    val := fun h => if h = 8 then 5000 else 0,
    acl := fun _ _ => false }

def vaultWorld : World :=
  { demoWorld with
    inco := vaultInco,
    cusdcBalances := fun a => if a = 7 then 8 else 0,
    vTotalAssets := 6,
    vTotalShares := 7 }

/-- A session registry with all revocation nonces 0. -/
def demoReg : SessionReg := { nonce := fun _ => 0 }

/-- The demo engine with handle 1 additionally decryptable by principal 3. -/
def demoGrantInco : Inco := demoInco.allow 1 3

/- ===================================================================== -/
/- ===== Theorems ===== -/
/- ===================================================================== -/

theorem Inco.allow_acl (st : Inco) (h : Nat) (a : Nat) (h2 : Nat) (a2 : Nat) :
    (st.allow h a).acl h2 a2 = ((h2 == h && a2 == a) || st.acl h2 a2) := rfl

theorem Inco.allow_nextHandle (st : Inco) (h : Nat) (a : Nat) :
    (st.allow h a).nextHandle = st.nextHandle := rfl

/-- C1: every operation that writes a new encrypted handle into an account
(cUSDC purchase, governance-token mint, vault deposit) grants the capability
against the exact handle value it stores: the stored handle was freshly
allocated during the operation (it lies in the allocation window of the
call) and immediately afterwards `isAuthorized(postWriteHandle, owner)`
holds. -/
theorem azothC1_fresh_handle_grants :
    (∀ w sender msgValue rate w2, purchaseCUSDC w sender msgValue rate = .ok w2 →
        w.inco.nextHandle ≤ w2.cusdcBalances sender ∧
        w2.cusdcBalances sender < w2.inco.nextHandle ∧
        w2.inco.isAuthorized (w2.cusdcBalances sender) sender = true) ∧
    (∀ w sender amount msgValue price w2, mint w sender amount msgValue price = .ok w2 →
        w.inco.nextHandle ≤ w2.gBalances sender ∧
        w2.gBalances sender < w2.inco.nextHandle ∧
        w2.inco.isAuthorized (w2.gBalances sender) sender = true) ∧
    (∀ w sender,
        w.inco.nextHandle ≤ (deposit w sender).1.vShares sender ∧
        (deposit w sender).1.vShares sender < (deposit w sender).1.inco.nextHandle ∧
        (deposit w sender).1.inco.isAuthorized
          ((deposit w sender).1.vShares sender) sender = true) := by
  refine ⟨?_, ?_, ?_⟩
  · intro w sender msgValue rate w2 h
    unfold purchaseCUSDC at h
    split at h
    · exact absurd h (by simp)
    · by_cases hb : w.cusdcBalances sender = 0 <;>
        simp only [hb, Inco.asEuint256, Inco.eadd, Inco.fresh, reduceIte] at h <;>
      · cases h
        refine ⟨?_, ?_, ?_⟩ <;>
          simp [Inco.allow, Inco.isAuthorized] <;>
          omega
  · intro w sender amount msgValue price w2 h
    unfold mint at h
    split at h
    · exact absurd h (by simp)
    · split at h
      · exact absurd h (by simp)
      · by_cases hb : w.gBalances sender = 0 <;>
          simp only [hb, Inco.asEuint256, Inco.asEbool, Inco.eadd, Inco.fresh,
            reduceIte] at h <;>
        · cases h
          refine ⟨?_, ?_, ?_⟩ <;>
            simp [Inco.allow, Inco.isAuthorized] <;>
            omega
  · intro w sender
    unfold deposit vaultTransfer
    by_cases hb : w.vShares sender = 0 <;>
      refine ⟨?_, ?_, ?_⟩ <;>
        simp [hb, Inco.allow, Inco.isAuthorized, Inco.asEuint256, Inco.eadd,
          Inco.esub, Inco.emul, Inco.ediv, Inco.fresh] <;>
        omega

/-- C1 witness: the purchase, mint and deposit conjuncts at concrete inputs. -/
theorem azothC1_witness :
    (demoWorld.inco.nextHandle ≤ purchasedWorld.cusdcBalances 7 ∧
      purchasedWorld.cusdcBalances 7 < purchasedWorld.inco.nextHandle ∧
      purchasedWorld.inco.isAuthorized (purchasedWorld.cusdcBalances 7) 7 = true) ∧
    (demoWorld.inco.nextHandle ≤ mintedWorld.gBalances 7 ∧
      mintedWorld.gBalances 7 < mintedWorld.inco.nextHandle ∧
      mintedWorld.inco.isAuthorized (mintedWorld.gBalances 7) 7 = true) ∧
    (vaultWorld.inco.nextHandle ≤ (deposit vaultWorld 7).1.vShares 7 ∧
      (deposit vaultWorld 7).1.vShares 7 < (deposit vaultWorld 7).1.inco.nextHandle ∧
      (deposit vaultWorld 7).1.inco.isAuthorized
        ((deposit vaultWorld 7).1.vShares 7) 7 = true) :=
  ⟨azothC1_fresh_handle_grants.1 demoWorld 7 (10 ^ 18) 1000 purchasedWorld (by rfl),
   azothC1_fresh_handle_grants.2.1 demoWorld 7 2 5 1 mintedWorld (by rfl),
   azothC1_fresh_handle_grants.2.2 vaultWorld 7⟩

/-- Inversion of a successful `castVote`: the checks it passed and the shape
of the post-state. -/
theorem castVote_ok_inv {w : World} {b s pid : Nat} {c : VoteType} {w2 : World}
    (h : castVote w b s pid c = .ok w2) :
    (w.proposals pid).state = ProposalState.Active ∧
    (w.proposals pid).startBlock ≤ b ∧
    b ≤ (w.proposals pid).endBlock ∧
    (w.receipts pid s).hasVoted = false ∧
    w.hasVotingPower s = true ∧
    (w2.proposals pid).state = ProposalState.Active ∧
    (w2.proposals pid).startBlock = (w.proposals pid).startBlock ∧
    (w2.proposals pid).endBlock = (w.proposals pid).endBlock ∧
    (w2.receipts pid s).hasVoted = true ∧
    w2.daoMembers = w.daoMembers := by
  simp only [castVote] at h
  repeat' split at h
  all_goals cases h
  all_goals simp_all

/-- Inversion of a successful `castVote`: the engine effects (one fresh handle,
granted only to the DAO contract) and the tally handles of the voted proposal. -/
theorem castVote_ok_engine {w : World} {b s pid : Nat} {c : VoteType} {w2 : World}
    (h : castVote w b s pid c = .ok w2) :
    w2.inco.nextHandle = w.inco.nextHandle + 1 ∧
    (∀ h2 p, w2.inco.acl h2 p =
        ((h2 == w.inco.nextHandle && p == daoAddr) || w.inco.acl h2 p)) ∧
    ((w2.proposals pid).forVotes = (w.proposals pid).forVotes ∨
      (w2.proposals pid).forVotes = w.inco.nextHandle) ∧
    ((w2.proposals pid).againstVotes = (w.proposals pid).againstVotes ∨
      (w2.proposals pid).againstVotes = w.inco.nextHandle) ∧
    ((w2.proposals pid).abstainVotes = (w.proposals pid).abstainVotes ∨
      (w2.proposals pid).abstainVotes = w.inco.nextHandle) := by
  simp only [castVote] at h
  repeat' split at h
  all_goals cases h
  all_goals simp [Inco.allow, Inco.eadd, Inco.fresh]

/-- Inversion of a successful `finalizeProposal`. -/
theorem finalizeProposal_ok_inv {w : World} {b s pid f a : Nat} {w2 : World}
    (h : finalizeProposal w b s pid f a = .ok w2) :
    w.daoMembers s = true ∧
    (w.proposals pid).endBlock < b ∧
    ((w.proposals pid).state = ProposalState.Active ∨
      (w.proposals pid).state = ProposalState.Pending) ∧
    w2.inco = w.inco ∧
    w2.daoMembers = w.daoMembers ∧
    w2.receipts = w.receipts ∧
    (w2.proposals pid).endBlock = (w.proposals pid).endBlock ∧
    (w2.proposals pid).forVotes = (w.proposals pid).forVotes ∧
    (w2.proposals pid).againstVotes = (w.proposals pid).againstVotes ∧
    (w2.proposals pid).abstainVotes = (w.proposals pid).abstainVotes ∧
    (w2.proposals pid).state =
      (if a < f then ProposalState.Succeeded else ProposalState.Defeated) := by
  simp only [finalizeProposal] at h
  repeat' split at h
  all_goals cases h
  all_goals refine ⟨?_, ?_, ?_, rfl, rfl, rfl, ?_, ?_, ?_, ?_, ?_⟩
  all_goals simp_all
  all_goals first
    | tauto
    | (split <;> first
        | rfl
        | omega)

/-- C2: the source has no Pending-to-Active transition at all: `propose`
stores state Pending, no operation ever assigns Active, and `castVote`
requires the stored state to be Active.  Concretely: member 7 (who holds
5 cGOV) proposes at block 100 with votingDelay 1 and votingPeriod 50400,
so the voting window is blocks 101 to 50501; an eligible first-time voter
calling `castVote` at block 200 — inside the window — fails with the
not-active error `ProposalNotActive`, contradicting the claim. -/
theorem azothC2_castVote_pending_in_window :
    propose demoWorld 100 7 "fund" 42 9 VotingMode.Normal 1 1 1 50400
      = .ok (demoWorld1, 1) ∧
    (demoWorld1.proposals 1).state = ProposalState.Pending ∧
    (demoWorld1.proposals 1).startBlock = 101 ∧
    (demoWorld1.proposals 1).endBlock = 50501 ∧
    demoWorld1.hasVotingPower 7 = true ∧
    (demoWorld1.receipts 1 7).hasVoted = false ∧
    castVote demoWorld1 200 7 1 VoteType.For = .error DaoErr.ProposalNotActive :=
  ⟨rfl, rfl, rfl, rfl, rfl, rfl, rfl⟩

/-- C3 counterexample: after a first successful finalize of proposal 1, a
second finalize call fails — but with `ProposalNotActive`, not with an
`AlreadyFinalized` error: the contract's error set has no such error. -/
theorem azothC3_counterexample :
    finalizeProposal demoWorld1 50502 7 1 5 3 = .ok finalizedWorld ∧
    finalizeProposal finalizedWorld 50503 7 1 5 3
      = .error DaoErr.ProposalNotActive :=
  ⟨rfl, rfl⟩

/-- C3 (amended): finalize is callable at most once per proposal — after a
first successful finalize, every further finalize call on the same proposal
fails (with `ProposalNotActive` when made by a member after the voting
window; the code has no `AlreadyFinalized` error), and the failed call
leaves the state unchanged. -/
theorem azothC3_finalize_once :
    ∀ w b s pid f a w2, finalizeProposal w b s pid f a = .ok w2 →
      (∀ b2 s2 f2 a2, ∃ e, finalizeProposal w2 b2 s2 pid f2 a2 = .error e) ∧
      (∀ b2 s2 f2 a2, w2.daoMembers s2 = true → (w2.proposals pid).endBlock < b2 →
          finalizeProposal w2 b2 s2 pid f2 a2 = .error DaoErr.ProposalNotActive) ∧
      (∀ b2 s2 f2 a2, finalizeRun w2 b2 s2 pid f2 a2 = w2) := by
  intro w b s pid f a w2 h
  obtain ⟨-, -, -, -, -, -, -, -, -, -, hstate⟩ := finalizeProposal_ok_inv h
  have hstate2 : (w2.proposals pid).state = ProposalState.Succeeded ∨
      (w2.proposals pid).state = ProposalState.Defeated := by
    rw [hstate]; split
    · exact Or.inl rfl
    · exact Or.inr rfl
  have hfails : ∀ b2 s2 f2 a2, ∃ e, finalizeProposal w2 b2 s2 pid f2 a2 = .error e := by
    intro b2 s2 f2 a2
    by_cases hm : w2.daoMembers s2 = false
    · exact ⟨DaoErr.NotMember, by simp [finalizeProposal, hm]⟩
    · by_cases hb2 : b2 ≤ (w2.proposals pid).endBlock
      · exact ⟨DaoErr.VotingNotEnded, by simp [finalizeProposal, hm, hb2]⟩
      · rcases hstate2 with h2 | h2 <;>
          exact ⟨DaoErr.ProposalNotActive, by simp [finalizeProposal, hm, hb2, h2]⟩
  refine ⟨hfails, ?_, ?_⟩
  · intro b2 s2 f2 a2 hmem hblk
    have hb2 : ¬ b2 ≤ (w2.proposals pid).endBlock := by omega
    rcases hstate2 with h2 | h2 <;>
      simp [finalizeProposal, hmem, hb2, h2]
  · intro b2 s2 f2 a2
    obtain ⟨e, he⟩ := hfails b2 s2 f2 a2
    unfold finalizeRun
    rw [he]

/-- C3 witness: the amended theorem applied to the first successful finalize
of the demo proposal. -/
theorem azothC3_witness :
    (∃ e, finalizeProposal finalizedWorld 50503 8 1 5 3 = .error e) ∧
    finalizeProposal finalizedWorld 50503 7 1 5 3
      = .error DaoErr.ProposalNotActive ∧
    finalizeRun finalizedWorld 50503 7 1 5 3 = finalizedWorld :=
  ⟨(azothC3_finalize_once demoWorld1 50502 7 1 5 3 finalizedWorld (by rfl)).1
      50503 8 5 3,
   (azothC3_finalize_once demoWorld1 50502 7 1 5 3 finalizedWorld (by rfl)).2.1
      50503 7 5 3 (by rfl) (by decide),
   (azothC3_finalize_once demoWorld1 50502 7 1 5 3 finalizedWorld (by rfl)).2.2
      50503 7 5 3⟩

/-- C4: finalize is callable only after the voting window (a call at
block ≤ endBlock by a member fails `VotingNotEnded`), decides the outcome
purely from the caller-supplied plaintext tallies without touching the
encryption engine (the engine state is unchanged, so nothing is decrypted),
transitioning to Succeeded exactly when forVotes > againstVotes and to
Defeated otherwise; with supplied tallies for=5 and against=3 the demo
proposal transitions to Succeeded. -/
theorem azothC4_finalize_threshold :
    (∀ w b s pid f a w2, finalizeProposal w b s pid f a = .ok w2 →
        (w.proposals pid).endBlock < b ∧
        w2.inco = w.inco ∧
        (w2.proposals pid).state =
          (if a < f then ProposalState.Succeeded else ProposalState.Defeated)) ∧
    (∀ w b s pid f a, w.daoMembers s = true → b ≤ (w.proposals pid).endBlock →
        finalizeProposal w b s pid f a = .error DaoErr.VotingNotEnded) ∧
    ((finalizeProposal demoWorld1 50502 7 1 5 3).map
        (fun w2 => (w2.proposals 1).state) = .ok ProposalState.Succeeded) := by
  refine ⟨?_, ?_, by rfl⟩
  · intro w b s pid f a w2 h
    obtain ⟨-, hblk, -, hinco, -, -, -, -, -, -, hstate⟩ := finalizeProposal_ok_inv h
    exact ⟨hblk, hinco, hstate⟩
  · intro w b s pid f a hmem hblk
    unfold finalizeProposal
    rw [hmem]
    simp only [Bool.true_eq_false, if_false, reduceIte]
    split
    · rfl
    · omega

/-- C4 witness: the general conjuncts applied to the demo proposal. -/
theorem azothC4_witness :
    ((demoWorld1.proposals 1).endBlock < 50502 ∧
      finalizedWorld.inco = demoWorld1.inco ∧
      (finalizedWorld.proposals 1).state =
        (if 3 < 5 then ProposalState.Succeeded else ProposalState.Defeated)) ∧
    finalizeProposal demoWorld1 500 7 1 5 3 = .error DaoErr.VotingNotEnded :=
  ⟨azothC4_finalize_threshold.1 demoWorld1 50502 7 1 5 3 finalizedWorld (by rfl),
   azothC4_finalize_threshold.2.1 demoWorld1 500 7 1 5 3 (by rfl) (by decide)⟩

/-- C5 counterexample: voter 7 votes For on the Active demo proposal at
block 200 (success); a second castVote by the same (proposal, voter) pair at
block 50502 — after the voting window — fails with `VotingEnded`, not with
`AlreadyVoted`: the window checks run before the receipt check. -/
theorem azothC5_counterexample :
    castVote activeWorld 200 7 1 VoteType.For = .ok votedWorld ∧
    (votedWorld.receipts 1 7).hasVoted = true ∧
    castVote votedWorld 50502 7 1 VoteType.For = .error DaoErr.VotingEnded ∧
    DaoErr.VotingEnded ≠ DaoErr.AlreadyVoted :=
  ⟨rfl, rfl, rfl, by decide⟩

/-- C5 (amended): after a successful castVote, every second castVote by the
same (proposalId, voter) pair fails and leaves the state (hence all three
encrypted tallies and the write-once receipt) unchanged; it fails with
`AlreadyVoted` precisely when the call passes the state and window checks
(i.e. during the voting window), and with the corresponding state or window
error otherwise. -/
theorem azothC5_second_vote :
    ∀ w b s pid c w2, castVote w b s pid c = .ok w2 →
      (∀ b2 c2, ∃ e, castVote w2 b2 s pid c2 = .error e) ∧
      (∀ b2 c2, (w2.proposals pid).startBlock ≤ b2 →
          b2 ≤ (w2.proposals pid).endBlock →
          castVote w2 b2 s pid c2 = .error DaoErr.AlreadyVoted) ∧
      (∀ b2 c2, castVoteRun w2 b2 s pid c2 = w2) := by
  intro w b s pid c w2 h
  obtain ⟨-, -, -, -, -, hst, -, -, hrec, -⟩ := castVote_ok_inv h
  have hfails : ∀ b2 c2, ∃ e, castVote w2 b2 s pid c2 = .error e := by
    intro b2 c2
    by_cases hb1 : b2 < (w2.proposals pid).startBlock
    · exact ⟨DaoErr.VotingNotStarted, by simp [castVote, hst, hb1]⟩
    · by_cases hb2 : (w2.proposals pid).endBlock < b2
      · exact ⟨DaoErr.VotingEnded, by simp [castVote, hst, hb1, hb2]⟩
      · exact ⟨DaoErr.AlreadyVoted, by simp [castVote, hst, hb1, hb2, hrec]⟩
  refine ⟨hfails, ?_, ?_⟩
  · intro b2 c2 hw1 hw2
    have hb1 : ¬ b2 < (w2.proposals pid).startBlock := by omega
    have hb2 : ¬ (w2.proposals pid).endBlock < b2 := by omega
    simp [castVote, hst, hb1, hb2, hrec]
  · intro b2 c2
    obtain ⟨e, he⟩ := hfails b2 c2
    unfold castVoteRun
    rw [he]

/-- C5 witness: the amended theorem applied to the demo vote. -/
theorem azothC5_witness :
    (∃ e, castVote votedWorld 50502 7 1 VoteType.Against = .error e) ∧
    castVote votedWorld 300 7 1 VoteType.Against = .error DaoErr.AlreadyVoted ∧
    castVoteRun votedWorld 300 7 1 VoteType.For = votedWorld :=
  ⟨(azothC5_second_vote activeWorld 200 7 1 VoteType.For votedWorld (by rfl)).1
      50502 VoteType.Against,
   (azothC5_second_vote activeWorld 200 7 1 VoteType.For votedWorld (by rfl)).2.1
      300 VoteType.Against (by decide) (by decide),
   (azothC5_second_vote activeWorld 200 7 1 VoteType.For votedWorld (by rfl)).2.2
      300 VoteType.For⟩

/-- C6: the `deposit` of ConfidentialVault.sol contradicts the claim and the
repository's own documentation.  It transfers an encrypted zero (the dummy
handle) instead of the depositor's full balance and computes
`(assets * DECIMAL_OFFSET * totalShares) / totalAssets` with no virtual
offsets.  Concretely, for a depositor whose cUSDC balance is 5000 and an
empty vault (totalAssets = 0, totalShares = 0): the shares issued are 0 and
the depositor's cUSDC balance is still 5000 afterwards, whereas the
documented virtual-offset formula of PROJECT_SUMMARY.md yields
5000 * (0 + 1000) / (0 + 1) = 5000000 shares, a positive well-defined
amount. -/
theorem azothC6_deposit_zero_shares :
    vaultWorld.inco.val (vaultWorld.cusdcBalances 7) = 5000 ∧
    vaultWorld.inco.val vaultWorld.vTotalAssets = 0 ∧
    vaultWorld.inco.val vaultWorld.vTotalShares = 0 ∧
    (deposit vaultWorld 7).1.inco.val (deposit vaultWorld 7).2 = 0 ∧
    (deposit vaultWorld 7).1.inco.val ((deposit vaultWorld 7).1.vShares 7) = 0 ∧
    (deposit vaultWorld 7).1.inco.val ((deposit vaultWorld 7).1.cusdcBalances 7)
      = 5000 ∧
    summaryDepositShares 5000 0 0 = 5000000 ∧
    0 < summaryDepositShares 5000 0 0 :=
  ⟨rfl, rfl, rfl, rfl, rfl, rfl, rfl, by decide⟩

/-- C7: a voucher whose expiry lies in the past always makes
`decryptWithVoucher` fail with `VoucherExpired` and return no results, even
when the signature, the revocation nonce and every per-handle authorization
check would pass. -/
theorem azothC7_voucher_expired :
    ∀ r ac now v handles, v.expiresAt < now → v.sigValid = true →
      r.nonce v.granter = v.nonceAtIssue →
      (∀ h ∈ handles, ac.isAuthorized h v.granter = true) →
      decryptWithVoucher r ac now v handles = .error VoucherErr.VoucherExpired := by
  intro r ac now v handles hexp hsig hnonce hauth
  have hle : v.expiresAt ≤ now := Nat.le_of_lt hexp
  simp [decryptWithVoucher, hsig, hle]

/-- C7 witness: a voucher issued by granter 3 expiring at time 1000, used at
time 2000 on a handle the granter is authorized for, with matching nonce. -/
theorem azothC7_witness :
    decryptWithVoucher demoReg demoGrantInco 2000 (issueVoucher demoReg 3 9 1000) [1]
      = .error VoucherErr.VoucherExpired :=
  azothC7_voucher_expired demoReg demoGrantInco 2000 (issueVoucher demoReg 3 9 1000)
    [1] (by decide) rfl rfl (by decide)

/-- The revocation nonce never decreases under any sequence of session
operations. -/
theorem SessionReg.run_nonce_mono (r : SessionReg) (ops : List SessionOp) (g : Nat) :
    r.nonce g ≤ (r.run ops).nonce g := by
  induction ops generalizing r with
  | nil => exact Nat.le_refl _
  | cons op rest ih =>
      have hstep : r.nonce g ≤ (r.step op).nonce g := by
        cases op with
        | issueOp a b c => exact Nat.le_refl _
        | revokeOp g2 =>
            by_cases hg : g = g2 <;>
              simp [SessionReg.step, revokeAll, hg]
      calc r.nonce g ≤ (r.step op).nonce g := hstep
        _ ≤ ((r.step op).run rest).nonce g := ih (r.step op)
        _ = (r.run (op :: rest)).nonce g := rfl

/-- C8: `revokeAll(granter)` increments the granter's revocation nonce in one
step, and every voucher issued before it (even after further session
operations on either side of the revocation) fails `VoucherRevoked` on its
next use while its expiry has not yet passed. -/
theorem azothC8_revoke_all :
    ∀ r0 g grantee exp ops1 ops2 ac now handles,
      (revokeAll (SessionReg.run r0 ops1) g).nonce g
        = (SessionReg.run r0 ops1).nonce g + 1 ∧
      (now < exp →
        decryptWithVoucher
          (SessionReg.run (revokeAll (SessionReg.run r0 ops1) g) ops2)
          ac now (issueVoucher r0 g grantee exp) handles
          = .error VoucherErr.VoucherRevoked) := by
  intro r0 g grantee exp ops1 ops2 ac now handles
  have hinc : (revokeAll (SessionReg.run r0 ops1) g).nonce g
      = (SessionReg.run r0 ops1).nonce g + 1 := by
    simp [revokeAll]
  refine ⟨hinc, ?_⟩
  intro hnow
  have h1 : r0.nonce g ≤ (SessionReg.run r0 ops1).nonce g :=
    SessionReg.run_nonce_mono r0 ops1 g
  have h3 : (revokeAll (SessionReg.run r0 ops1) g).nonce g ≤
      (SessionReg.run (revokeAll (SessionReg.run r0 ops1) g) ops2).nonce g :=
    SessionReg.run_nonce_mono _ ops2 g
  have hne : ¬ (SessionReg.run (revokeAll (SessionReg.run r0 ops1) g) ops2).nonce g
      = (issueVoucher r0 g grantee exp).nonceAtIssue := by
    simp only [issueVoucher]
    omega
  have hlt : ¬ exp ≤ now := by omega
  simp [decryptWithVoucher, issueVoucher, hlt, hne]
  intro h4
  exact absurd h4 (by omega)

/-- C8 witness: issue a voucher for granter 3 (nonce 0), revoke all, then a
use at time 500 — before the expiry 1000 — fails `VoucherRevoked`. -/
theorem azothC8_witness :
    (revokeAll (SessionReg.run demoReg []) 3).nonce 3
      = (SessionReg.run demoReg []).nonce 3 + 1 ∧
    decryptWithVoucher (SessionReg.run (revokeAll (SessionReg.run demoReg []) 3) [])
      demoGrantInco 500 (issueVoucher demoReg 3 9 1000) [1]
      = .error VoucherErr.VoucherRevoked :=
  ⟨(azothC8_revoke_all demoReg 3 9 1000 [] [] demoGrantInco 500 [1]).1,
   (azothC8_revoke_all demoReg 3 9 1000 [] [] demoGrantInco 500 [1]).2 (by decide)⟩

/-- Inversion of a successful `propose`: the tally handles are freshly
allocated, the ACL gains grants only for the DAO contract, and no grant is
placed on any handle at or beyond the new allocation frontier. -/
theorem propose_ok_inv {w : World} {b s : Nat} {d : String} {amt rec : Nat}
    {m : VotingMode} {mv fee vd vp : Nat} {w1 : World} {pid : Nat}
    (h : propose w b s d amt rec m mv fee vd vp = .ok (w1, pid)) :
    (w1.proposals pid).forVotes = w.inco.nextHandle + 1 ∧
    (w1.proposals pid).againstVotes = w.inco.nextHandle + 2 ∧
    (w1.proposals pid).abstainVotes = w.inco.nextHandle + 3 ∧
    w1.inco.nextHandle = w.inco.nextHandle + 4 ∧
    (∀ h2 p, p ≠ daoAddr → w1.inco.acl h2 p = w.inco.acl h2 p) ∧
    (∀ h2 p, w.inco.nextHandle + 4 ≤ h2 → w1.inco.acl h2 p = w.inco.acl h2 p) := by
  simp only [propose] at h
  repeat' split at h
  all_goals cases h
  refine ⟨by simp [Inco.asEuint256, Inco.fresh], by simp [Inco.asEuint256, Inco.fresh],
    by simp [Inco.asEuint256, Inco.fresh],
    by simp [Inco.allow, Inco.asEuint256, Inco.fresh], ?_, ?_⟩
  · intro h2 p hp
    have hp2 : (p == daoAddr) = false := by
      rw [beq_eq_false_iff_ne]
      exact hp
    simp [Inco.allow, Inco.asEuint256, Inco.fresh, hp2]
  · intro h2 p hge
    have e0 : (h2 == w.inco.nextHandle) = false := by
      rw [beq_eq_false_iff_ne]; omega
    have e1 : (h2 == w.inco.nextHandle + 1) = false := by
      rw [beq_eq_false_iff_ne]; omega
    have e2 : (h2 == w.inco.nextHandle + 1 + 1) = false := by
      rw [beq_eq_false_iff_ne]; omega
    have e3 : (h2 == w.inco.nextHandle + 1 + 1 + 1) = false := by
      rw [beq_eq_false_iff_ne]; omega
    simp [Inco.allow, Inco.asEuint256, Inco.fresh, e0, e1, e2, e3]

/-- A `castVote` transaction (successful or reverted) preserves the tally
confidentiality invariant and the voting window of the proposal. -/
theorem castVoteRun_tally_safe {w : World} {pid b s : Nat} {c : VoteType}
    (hs : TallySafe w pid) :
    TallySafe (castVoteRun w b s pid c) pid ∧
    ((castVoteRun w b s pid c).proposals pid).endBlock
      = (w.proposals pid).endBlock := by
  obtain ⟨hwf, hbf, hba, hbb, hpriv⟩ := hs
  unfold castVoteRun
  cases hcv : castVote w b s pid c with
  | error e => exact ⟨⟨hwf, hbf, hba, hbb, hpriv⟩, rfl⟩
  | ok w2 =>
      dsimp only
      obtain ⟨hn, hacl, hf, ha, hb2⟩ := castVote_ok_engine hcv
      obtain ⟨-, -, -, -, -, -, -, hend, -, -⟩ := castVote_ok_inv hcv
      have hwf2 : Inco.AclWf w2.inco := by
        intro h2 p hge
        rw [hacl]
        have e0 : (h2 == w.inco.nextHandle) = false := by
          rw [beq_eq_false_iff_ne]; omega
        have : w.inco.acl h2 p = false := hwf h2 p (by omega)
        simp [e0, this]
      have hpriv2 : TallyPrivate w2 pid := by
        intro p hp
        have hp2 : (p == daoAddr) = false := by
          rw [beq_eq_false_iff_ne]; exact hp
        obtain ⟨q1, q2, q3⟩ := hpriv p hp
        refine ⟨?_, ?_, ?_⟩ <;> rw [hacl] <;> simp [hp2]
        · rcases hf with h' | h' <;> rw [h']
          · exact q1
          · exact hwf _ p (Nat.le_refl _)
        · rcases ha with h' | h' <;> rw [h']
          · exact q2
          · exact hwf _ p (Nat.le_refl _)
        · rcases hb2 with h' | h' <;> rw [h']
          · exact q3
          · exact hwf _ p (Nat.le_refl _)
      refine ⟨⟨hwf2, ?_, ?_, ?_, hpriv2⟩, hend⟩
      · rcases hf with h' | h' <;> omega
      · rcases ha with h' | h' <;> omega
      · rcases hb2 with h' | h' <;> omega

/-- A `revealVotes` transaction during the voting window is a no-op: the
call reverts (`NotMember` or `VotingNotEnded`). -/
theorem revealRun_in_window {w : World} {pid b s : Nat}
    (hb : b ≤ (w.proposals pid).endBlock) : revealRun w b s pid = w := by
  unfold revealRun revealVotes
  by_cases hm : w.daoMembers s = false
  · simp [hm]
  · simp [hm, hb]

/-- A `finalizeProposal` transaction preserves the tally confidentiality
invariant and the voting window: it never touches the engine and only
rewrites the lifecycle state. -/
theorem finalizeRun_tally_safe {w : World} {pid b s f a : Nat}
    (hs : TallySafe w pid) :
    TallySafe (finalizeRun w b s pid f a) pid ∧
    ((finalizeRun w b s pid f a).proposals pid).endBlock
      = (w.proposals pid).endBlock := by
  obtain ⟨hwf, hbf, hba, hbb, hpriv⟩ := hs
  unfold finalizeRun
  cases hfin : finalizeProposal w b s pid f a with
  | error e => exact ⟨⟨hwf, hbf, hba, hbb, hpriv⟩, rfl⟩
  | ok w2 =>
      dsimp only
      obtain ⟨-, -, -, hinco, -, -, hend, hf, ha, hb2, -⟩ := finalizeProposal_ok_inv hfin
      refine ⟨⟨?_, ?_, ?_, ?_, ?_⟩, hend⟩
      · rw [hinco]; exact hwf
      · rw [hinco, hf]; exact hbf
      · rw [hinco, ha]; exact hba
      · rw [hinco, hb2]; exact hbb
      · intro p hp
        obtain ⟨q1, q2, q3⟩ := hpriv p hp
        rw [hinco, hf, ha, hb2]
        exact ⟨q1, q2, q3⟩

/-- Any single DAO transaction on the proposal whose block number has not
passed the proposal's endBlock preserves the invariant and the window. -/
theorem stepDao_tally_safe {pid : Nat} {w : World} {op : DaoOp}
    (hs : TallySafe w pid) (hb : DaoOp.blk op ≤ (w.proposals pid).endBlock) :
    TallySafe (stepDao pid w op) pid ∧
    ((stepDao pid w op).proposals pid).endBlock = (w.proposals pid).endBlock := by
  cases op with
  | voteOp b s c => exact castVoteRun_tally_safe hs
  | revealOp b s =>
      have : revealRun w b s pid = w := revealRun_in_window hb
      rw [stepDao, this]
      exact ⟨hs, rfl⟩
  | finalizeOp b s f a => exact finalizeRun_tally_safe hs

/-- C9: during a proposal's voting window the three tally handles are
decryptable only by the DAO contract itself.  (i) `revealVotes` — the sole
operation granting tally capability to an external principal — always fails
`VotingNotEnded` while the current block has not passed endBlock;
(ii) a successful `castVote` grants capability on the new tally handle only
to the contract (the ACL of every other principal is unchanged);
(iii) `propose` creates the proposal with all three tally handles
decryptable by nobody but the contract; (iv) that invariant is preserved by
every sequence of DAO transactions on the proposal whose block numbers lie
inside the window, so no principal other than the contract is ever
authorized on a tally handle. -/
theorem azothC9_tally_privacy :
    (∀ w b s pid, w.daoMembers s = true → b ≤ (w.proposals pid).endBlock →
        revealVotes w b s pid = .error DaoErr.VotingNotEnded) ∧
    (∀ w b s pid c w2, castVote w b s pid c = .ok w2 →
        ∀ h2 p, p ≠ daoAddr → w2.inco.acl h2 p = w.inco.acl h2 p) ∧
    (∀ w b s d amt rec m mv fee vd vp w1 pid,
        propose w b s d amt rec m mv fee vd vp = .ok (w1, pid) →
        Inco.AclWf w.inco → TallySafe w1 pid) ∧
    (∀ pid w ops, TallySafe w pid →
        (∀ op ∈ ops, DaoOp.blk op ≤ (w.proposals pid).endBlock) →
        TallySafe (runDao pid w ops) pid ∧
        (∀ p, p ≠ daoAddr →
          (runDao pid w ops).inco.isAuthorized
            ((runDao pid w ops).proposals pid).forVotes p = false ∧
          (runDao pid w ops).inco.isAuthorized
            ((runDao pid w ops).proposals pid).againstVotes p = false ∧
          (runDao pid w ops).inco.isAuthorized
            ((runDao pid w ops).proposals pid).abstainVotes p = false)) := by
  refine ⟨?_, ?_, ?_, ?_⟩
  · intro w b s pid hmem hb
    simp [revealVotes, hmem, hb]
  · intro w b s pid c w2 h h2 p hp
    obtain ⟨-, hacl, -⟩ := castVote_ok_engine h
    have hp2 : (p == daoAddr) = false := by
      rw [beq_eq_false_iff_ne]; exact hp
    rw [hacl]
    simp [hp2]
  · intro w b s d amt rec m mv fee vd vp w1 pid h hwf
    obtain ⟨hf, ha, hb2, hn, hother, hfrontier⟩ := propose_ok_inv h
    refine ⟨?_, by omega, by omega, by omega, ?_⟩
    · intro h2 p hge
      rw [hfrontier h2 p (by omega)]
      exact hwf h2 p (by omega)
    · intro p hp
      rw [hf, ha, hb2]
      refine ⟨?_, ?_, ?_⟩ <;> rw [hother _ p hp] <;> exact hwf _ p (by omega)
  · intro pid w ops hs hops
    have main : TallySafe (runDao pid w ops) pid := by
      revert hs hops
      induction ops generalizing w with
      | nil => intro hs _; exact hs
      | cons op rest ih =>
          intro hs hops
          obtain ⟨hs2, hend⟩ := stepDao_tally_safe hs (hops op (by simp))
          refine ih (stepDao pid w op) hs2 ?_
          intro op2 hin
          rw [hend]
          exact hops op2 (by simp [hin])
    refine ⟨main, ?_⟩
    intro p hp
    exact main.2.2.2.2 p hp

/-- C9 witness: the reveal-in-window conjunct at the demo proposal, and the
invariant carried from `propose` through a vote inside the window. -/
theorem azothC9_witness :
    revealVotes demoWorld1 200 7 1 = .error DaoErr.VotingNotEnded ∧
    TallySafe (runDao 1 demoWorld1 [DaoOp.voteOp 200 7 VoteType.For]) 1 :=
  ⟨azothC9_tally_privacy.1 demoWorld1 200 7 1 (by rfl) (by decide),
   (azothC9_tally_privacy.2.2.2 1 demoWorld1 [DaoOp.voteOp 200 7 VoteType.For]
      (azothC9_tally_privacy.2.2.1 demoWorld 100 7 "fund" 42 9 VotingMode.Normal
        1 1 1 50400 demoWorld1 1 (by rfl) (fun _ _ _ => rfl))
      (by decide)).1⟩

theorem setMode_proposals_at (w : World) (pid : Nat) (m : VotingMode) :
    (setMode w pid m).proposals pid = { w.proposals pid with votingMode := m } := by
  simp [setMode]

/-- `propose` with a different votingMode produces the same result up to the
votingMode field of the created proposal. -/
theorem propose_mode (w : World) (b s : Nat) (d : String) (amt rec : Nat)
    (m1 m2 : VotingMode) (mv fee vd vp : Nat) :
    propose w b s d amt rec m2 mv fee vd vp =
      (propose w b s d amt rec m1 mv fee vd vp).map
        (fun r => (setMode r.1 r.2 m2, r.2)) := by
  simp only [propose]
  repeat' split
  any_goals rfl
  simp only [Except.map]
  refine congrArg Except.ok (Prod.ext ?_ rfl)
  simp only [setMode]
  refine World.mk.injEq .. ▸ ?_
  refine ⟨rfl, rfl, rfl, rfl, rfl, rfl, rfl, rfl, rfl, rfl, rfl, ?_, rfl, rfl⟩
  funext j
  by_cases hj : j = w.proposalCount + 1 <;> simp [hj]

/-- `castVote` never reads the votingMode: it commutes with replacing the
votingMode of the voted proposal. -/
theorem castVote_setMode (w : World) (pid : Nat) (m : VotingMode) (b s : Nat)
    (c : VoteType) :
    castVote (setMode w pid m) b s pid c =
      (castVote w b s pid c).map (fun w2 => setMode w2 pid m) := by
  simp only [castVote, setMode, World.hasVotingPower, World.gBalanceOf, reduceIte,
    if_true, eq_self_iff_true]
  repeat' split
  any_goals rfl
  all_goals simp only [Except.map]
  all_goals refine congrArg Except.ok ?_
  all_goals congr 1
  all_goals funext j
  all_goals by_cases hj : j = pid <;> simp [hj]

theorem castVoteRun_setMode (w : World) (pid : Nat) (m : VotingMode) (b s : Nat)
    (c : VoteType) :
    castVoteRun (setMode w pid m) b s pid c =
      setMode (castVoteRun w b s pid c) pid m := by
  unfold castVoteRun
  rw [castVote_setMode]
  cases castVote w b s pid c <;> rfl

theorem runVotes_setMode (pid : Nat) (m : VotingMode) (vs : List VoteCall) :
    ∀ w, runVotes (setMode w pid m) pid vs = setMode (runVotes w pid vs) pid m := by
  induction vs with
  | nil => intro w; rfl
  | cons v rest ih =>
      intro w
      show runVotes (castVoteRun (setMode w pid m) v.blk v.sender pid v.support)
          pid rest = _
      rw [castVoteRun_setMode]
      exact ih (castVoteRun w v.blk v.sender pid v.support)

/-- C10: castVote adds the voter's full encrypted governance balance to the
chosen tally regardless of the proposal's votingMode: creating the same
proposal in Normal or Quadratic mode and applying the same sequence of
votes yields states identical up to the stored votingMode field — in
particular the same engine state (hence the same encrypted tally values),
the same receipts and the same tally handles.  No square-root weighting is
ever applied. -/
theorem azothC10_voting_mode_irrelevant :
    ∀ w b s d amt rec m1 m2 mv fee vd vp w1 pid1 w2 pid2 vs,
      propose w b s d amt rec m1 mv fee vd vp = .ok (w1, pid1) →
      propose w b s d amt rec m2 mv fee vd vp = .ok (w2, pid2) →
      pid2 = pid1 ∧
      runVotes w2 pid1 vs = setMode (runVotes w1 pid1 vs) pid1 m2 ∧
      (runVotes w2 pid1 vs).inco = (runVotes w1 pid1 vs).inco ∧
      (runVotes w2 pid1 vs).receipts = (runVotes w1 pid1 vs).receipts ∧
      ((runVotes w2 pid1 vs).proposals pid1).forVotes
        = ((runVotes w1 pid1 vs).proposals pid1).forVotes ∧
      ((runVotes w2 pid1 vs).proposals pid1).againstVotes
        = ((runVotes w1 pid1 vs).proposals pid1).againstVotes ∧
      ((runVotes w2 pid1 vs).proposals pid1).abstainVotes
        = ((runVotes w1 pid1 vs).proposals pid1).abstainVotes := by
  intro w b s d amt rec m1 m2 mv fee vd vp w1 pid1 w2 pid2 vs h1 h2
  rw [propose_mode w b s d amt rec m1 m2 mv fee vd vp, h1] at h2
  simp only [Except.map] at h2
  cases h2
  have hrun : runVotes (setMode w1 pid1 m2) pid1 vs
      = setMode (runVotes w1 pid1 vs) pid1 m2 := runVotes_setMode pid1 m2 vs w1
  refine ⟨rfl, hrun, ?_, ?_, ?_, ?_, ?_⟩ <;>
    rw [hrun] <;> simp [setMode]

/-- C10 witness: the demo proposal created in Normal and Quadratic mode,
followed by the same vote. -/
theorem azothC10_witness :
    1 = 1 ∧
    runVotes demoWorldQ 1 [⟨200, 7, VoteType.For⟩]
      = setMode (runVotes demoWorld1 1 [⟨200, 7, VoteType.For⟩]) 1
          VotingMode.Quadratic ∧
    (runVotes demoWorldQ 1 [⟨200, 7, VoteType.For⟩]).inco
      = (runVotes demoWorld1 1 [⟨200, 7, VoteType.For⟩]).inco ∧
    (runVotes demoWorldQ 1 [⟨200, 7, VoteType.For⟩]).receipts
      = (runVotes demoWorld1 1 [⟨200, 7, VoteType.For⟩]).receipts ∧
    ((runVotes demoWorldQ 1 [⟨200, 7, VoteType.For⟩]).proposals 1).forVotes
      = ((runVotes demoWorld1 1 [⟨200, 7, VoteType.For⟩]).proposals 1).forVotes ∧
    ((runVotes demoWorldQ 1 [⟨200, 7, VoteType.For⟩]).proposals 1).againstVotes
      = ((runVotes demoWorld1 1 [⟨200, 7, VoteType.For⟩]).proposals 1).againstVotes ∧
    ((runVotes demoWorldQ 1 [⟨200, 7, VoteType.For⟩]).proposals 1).abstainVotes
      = ((runVotes demoWorld1 1 [⟨200, 7, VoteType.For⟩]).proposals 1).abstainVotes :=
  azothC10_voting_mode_irrelevant demoWorld 100 7 "fund" 42 9 VotingMode.Normal
    VotingMode.Quadratic 1 1 1 50400 demoWorld1 1 demoWorldQ 1
    [⟨200, 7, VoteType.For⟩] (by rfl) (by rfl)

end Azoth
